import Mathlib

/-!
Verification of the UnrealFloodingScripts pipeline.

The development shallowly embeds the Python scripts of the repository:
`add_time_to_niwa.py` (timestamp retrofit of an exported CSV),
`create_water_csv.py` (nearest-neighbour depth sampling, coordinate
normalisation and CSV export) and `spawn_water.py` (the consumer that
parses the exported CSV back into water-source records).

Python floats are modelled by rationals, Python exceptions by `Option` /
`Except` results, and the in-memory CSV text by Lean strings together
with a model of the Python `csv` module's default dialect.
-/

namespace FloodScripts

attribute [local semireducible] Rat.mul Rat.add Rat.sub Rat.inv

/-- Equality of `Except` results is decidable when both summands are. -/
instance {ε α : Type} [DecidableEq ε] [DecidableEq α] : DecidableEq (Except ε α) :=
  fun a b =>
    match a, b with
    | .ok x, .ok y => decidable_of_iff (x = y) ⟨fun h => h ▸ rfl, Except.ok.inj⟩
    | .error x, .error y =>
        decidable_of_iff (x = y) ⟨fun h => h ▸ rfl, Except.error.inj⟩
    | .ok _, .error _ => isFalse (fun hc => Except.noConfusion hc)
    | .error _, .ok _ => isFalse (fun hc => Except.noConfusion hc)

/-! ## A model of the Python csv module (default dialect)

`csv.reader` iterates the file split at `\r\n`, `\n` or `\r` (the scripts
open files with `newline=""`), honouring quoted fields: a field starting
with `"` runs until a closing `"`, a doubled `""` inside quotes denotes a
literal quote, and row terminators inside quotes are kept verbatim.  A
completely empty line yields the empty row `[]`.  `csv.writer` joins the
fields of a row with `,`, quotes a field exactly when it contains the
delimiter, the quote character or a line-break character (QUOTE_MINIMAL),
writes a lone empty field as a quoted empty string, and terminates every
row with `\r\n`. -/

namespace Csv

/-- Parser modes of the reader state machine: start of a field, inside an
unquoted field, inside a quoted field, just after a closing quote, and
just after a row-terminating carriage return (where a following line
feed belongs to the same CR LF terminator). -/
inductive Mode
  | start
  | unq
  | quo
  | postquo
  | cr
deriving DecidableEq

/-- The reader state machine over the whole character stream.  Arguments:
current mode, the field accumulated so far, the completed fields of the
current row, the completed rows, remaining input.  A carriage return
ends the row and switches to `.cr` mode, which swallows a following line
feed (so that CR LF terminates one row only) and otherwise treats the
character exactly as `.start` mode with a fresh row would.  An end of
input inside a quoted field ends the row (the Python reader would raise
there; no theorem depends on that corner). -/
def parseAllGo : Mode → List Char → List (List Char) → List (List (List Char)) →
    List Char → List (List (List Char))
  | .start, f, fields, rows, [] =>
      rows ++ (if fields.isEmpty then [] else [fields ++ [f]])
  | .start, f, fields, rows, c :: rest =>
      if c = '"' then parseAllGo .quo f fields rows rest
      else if c = ',' then parseAllGo .start [] (fields ++ [f]) rows rest
      else if c = '\n' then
        parseAllGo .start [] []
          (rows ++ [if fields.isEmpty then [] else fields ++ [f]]) rest
      else if c = '\r' then
        parseAllGo .cr [] []
          (rows ++ [if fields.isEmpty then [] else fields ++ [f]]) rest
      else parseAllGo .unq (f ++ [c]) fields rows rest
  | .unq, f, fields, rows, [] => rows ++ [fields ++ [f]]
  | .unq, f, fields, rows, c :: rest =>
      if c = ',' then parseAllGo .start [] (fields ++ [f]) rows rest
      else if c = '\n' then parseAllGo .start [] [] (rows ++ [fields ++ [f]]) rest
      else if c = '\r' then parseAllGo .cr [] [] (rows ++ [fields ++ [f]]) rest
      else parseAllGo .unq (f ++ [c]) fields rows rest
  | .quo, f, fields, rows, [] => rows ++ [fields ++ [f]]
  | .quo, f, fields, rows, c :: rest =>
      if c = '"' then parseAllGo .postquo f fields rows rest
      else parseAllGo .quo (f ++ [c]) fields rows rest
  | .postquo, f, fields, rows, [] => rows ++ [fields ++ [f]]
  | .postquo, f, fields, rows, c :: rest =>
      if c = '"' then parseAllGo .quo (f ++ ['"']) fields rows rest
      else if c = ',' then parseAllGo .start [] (fields ++ [f]) rows rest
      else if c = '\n' then parseAllGo .start [] [] (rows ++ [fields ++ [f]]) rest
      else if c = '\r' then parseAllGo .cr [] [] (rows ++ [fields ++ [f]]) rest
      else parseAllGo .unq (f ++ [c]) fields rows rest
  | .cr, _, _, rows, [] => rows
  | .cr, _, _, rows, c :: rest =>
      if c = '\n' then parseAllGo .start [] [] rows rest
      else if c = '"' then parseAllGo .quo [] [] rows rest
      else if c = ',' then parseAllGo .start [] [[]] rows rest
      else if c = '\r' then parseAllGo .cr [] [] (rows ++ [[]]) rest
      else parseAllGo .unq [c] [] rows rest

/-- The model of `csv.reader` over a whole in-memory file. -/
def parse (s : String) : List (List String) :=
  (parseAllGo .start [] [] [] s.data).map (fun r => r.map (fun cs => String.mk cs))

/-- QUOTE_MINIMAL: a field is quoted exactly when it contains the
delimiter, the quote character or a line-break character. -/
def needsQuote (f : List Char) : Bool :=
  f.any (fun c => c = ',' || c = '"' || c = '\r' || c = '\n')

/-- Wrap a field in quotes, doubling interior quote characters. -/
def quoteField (f : List Char) : List Char :=
  '"' :: (f.map (fun c => if c = '"' then ['"', '"'] else [c])).flatten ++ ['"']

/-- Serialize one field under QUOTE_MINIMAL. -/
def writeField (f : List Char) : List Char :=
  if needsQuote f then quoteField f else f

/-- The serialized fields of a row joined by the delimiter
(`",".join` over the written fields). -/
def joinFields : List (List Char) → List Char
  | [] => []
  | [f] => writeField f
  | f :: rest => writeField f ++ ',' :: joinFields rest

/-- Serialize one row: fields joined by commas, terminated by CR LF; a
row holding a single empty field is written as a quoted empty string. -/
def writeRow (r : List (List Char)) : List Char :=
  (if r = [[]] then ['"', '"'] else joinFields r) ++ ['\r', '\n']

/-- Serialize a list of rows (`csv.writer.writerows`). -/
def writeGo (rows : List (List (List Char))) : List Char :=
  (rows.map writeRow).flatten

/-- The model of `csv.writer` over a whole in-memory file. -/
def write (rows : List (List String)) : String :=
  String.mk (writeGo (rows.map (fun r => r.map String.data)))

end Csv

/-! ## A model of the Python datetime arithmetic used by the scripts

`datetime.datetime` is a proleptic-Gregorian calendar date plus a time of
day and a microsecond count; adding a `timedelta(hours=k)` is exact
integer arithmetic on that calendar.  The conversion between calendar
dates and a linear day count uses the standard civil-calendar algorithms.
The model is total over `Int` where CPython bounds years to 1..9999 and
raises `OverflowError` outside; all values reachable in the claims lie
inside that range. -/

namespace PyTime

structure DateTime where
  year : Int
  month : Int
  day : Int
  hour : Int
  minute : Int
  second : Int
  microsecond : Int
deriving DecidableEq

/-- Days since 1970-01-01 of a civil calendar date. -/
def daysFromCivil (y m d : Int) : Int :=
  let yy := y - (if m ≤ 2 then 1 else 0)
  let era := Int.ediv yy 400
  let yoe := yy - era * 400
  let doy := Int.ediv (153 * (m + (if m > 2 then -3 else 9)) + 2) 5 + d - 1
  let doe := yoe * 365 + Int.ediv yoe 4 - Int.ediv yoe 100 + doy
  era * 146097 + doe - 719468

/-- Civil calendar date (year, month, day) of a count of days since
1970-01-01. -/
def civilFromDays (z : Int) : Int × Int × Int :=
  let zz := z + 719468
  let era := Int.ediv zz 146097
  let doe := zz - era * 146097
  let yoe :=
    Int.ediv (doe - Int.ediv doe 1460 + Int.ediv doe 36524 - Int.ediv doe 146096) 365
  let y := yoe + era * 400
  let doy := doe - (365 * yoe + Int.ediv yoe 4 - Int.ediv yoe 100)
  let mp := Int.ediv (5 * doy + 2) 153
  let d := doy - Int.ediv (153 * mp + 2) 5 + 1
  let m := mp + (if mp < 10 then 3 else -9)
  (y + (if m ≤ 2 then 1 else 0), m, d)

/-- Seconds since 1970-01-01T00:00:00 (microseconds not included). -/
def toEpochSecs (dt : DateTime) : Int :=
  daysFromCivil dt.year dt.month dt.day * 86400
    + dt.hour * 3600 + dt.minute * 60 + dt.second

/-- Computes `dt + datetime.timedelta(hours=k)`: whole-hour shifts leave the
microsecond field unchanged. -/
def addHours (dt : DateTime) (k : Int) : DateTime :=
  let s := toEpochSecs dt + k * 3600
  let days := Int.ediv s 86400
  let rem := Int.emod s 86400
  let c := civilFromDays days
  ⟨c.1, c.2.1, c.2.2, Int.ediv rem 3600, Int.ediv (Int.emod rem 3600) 60,
    Int.emod rem 60, dt.microsecond⟩

/-- The decimal digits of a natural number, most significant first.
Structural recursion on a fuel bound; `n + 1` steps always suffice
because the argument shrinks by a factor of ten each step. -/
def natDigitCharsAux : Nat → Nat → List Char
  | 0, _ => []
  | fuel + 1, n =>
      if n < 10 then [Char.ofNat (48 + n)]
      else natDigitCharsAux fuel (n / 10) ++ [Char.ofNat (48 + n % 10)]

/-- The decimal digits of a natural number, most significant first. -/
def natDigitChars (n : Nat) : List Char :=
  natDigitCharsAux (n + 1) n

/-- A field of a datetime rendered zero-padded to the given width.  The
fields of a CPython datetime are nonnegative, so the `Int.toNat` view is
exact on the reachable values. -/
def padDigits (width : Nat) (n : Int) : String :=
  let ds := natDigitChars n.toNat
  String.mk (List.replicate (width - ds.length) '0' ++ ds)

/-- Renders `dt.strftime("%Y-%m-%dT%H:%M:%S.%f")`: the ISO-8601 form with a
four-digit year, two-digit date and time fields and six fractional
digits. -/
def strfIso (dt : DateTime) : String :=
  padDigits 4 dt.year ++ "-" ++ padDigits 2 dt.month ++ "-" ++ padDigits 2 dt.day
    ++ "T" ++ padDigits 2 dt.hour ++ ":" ++ padDigits 2 dt.minute ++ ":"
    ++ padDigits 2 dt.second ++ "." ++ padDigits 6 dt.microsecond

end PyTime

/-! ## add_time_to_niwa.py -/

namespace AddTimeToNiwa

/-- The default `reference_datetime`, `datetime.datetime(2000, 1, 1)`. -/
def referenceEpoch2000 : PyTime.DateTime := ⟨2000, 1, 1, 0, 0, 0, 0⟩

/-- Embeds `generate_time_stamps_from_band_indices`: each band index is treated
as one more than the number of hours since the reference datetime, and
the shifted datetimes are formatted with
`strftime("%Y-%m-%dT%H:%M:%S.%f")`, accumulated in input order. -/
def generate_time_stamps_from_band_indices (band_indices : List Int)
    (reference_datetime : PyTime.DateTime) : List String :=
  band_indices.foldl
    (fun time_columns band_index =>
      time_columns
        ++ [PyTime.strfIso (PyTime.addHours reference_datetime (band_index - 1))])
    []

/-- Is `c` one of the ASCII whitespace characters stripped by `int(str)`. -/
def isPySpace (c : Char) : Bool :=
  c = ' ' || c = '\t' || c = '\n' || c = '\r' || c = '\x0b' || c = '\x0c'

/-- Decimal digits to a natural number. -/
def digitsToNat (cs : List Char) : Option Nat :=
  if cs.isEmpty || !cs.all Char.isDigit then none
  else some (cs.foldl (fun acc c => acc * 10 + (c.toNat - 48)) 0)

/-- Python `int(s)`: surrounding ASCII whitespace is stripped, then an
optional sign and a nonempty run of decimal digits.  (The underscore
digit grouping CPython also accepts never occurs in these tables and is
not modelled.)  `none` models the `ValueError`. -/
def pyInt (s : String) : Option Int :=
  let cs := ((s.data.dropWhile isPySpace).reverse.dropWhile isPySpace).reverse
  match cs with
  | '-' :: ds => (digitsToNat ds).map (fun n => -(n : Int))
  | '+' :: ds => (digitsToNat ds).map (fun n => (n : Int))
  | ds => (digitsToNat ds).map (fun n => (n : Int))

/-- Embeds `[int(band_index) for band_index in band_index_strs]`: the list
comprehension aborts on the first invalid literal. -/
def mapPyInts : List String → Option (List Int)
  | [] => some []
  | s :: rest =>
      match pyInt s, mapPyInts rest with
      | some i, some is => some (i :: is)
      | _, _ => none

/-- Embeds `add_timestamps_to_csv`, from file contents to file contents.  The
reader consumes the header as `xc, yc, zc, *band_index_strs` (fewer than
three header fields raise `ValueError`, an empty reader raises
`StopIteration`; both are `none` here), the band indices are parsed as
integers, and the writer emits the new header followed by the remaining
parsed rows. -/
def add_timestamps_to_csv (contents : String) : Option String :=
  match Csv.parse contents with
  | [] => none
  | header :: remaining_data =>
      match header with
      | xc :: yc :: zc :: band_index_strs =>
          match mapPyInts band_index_strs with
          | some band_indices =>
              some (Csv.write
                ((xc :: yc :: zc ::
                  generate_time_stamps_from_band_indices band_indices referenceEpoch2000)
                  :: remaining_data))
          | none => none
      | _ => none

/-- The bytes of a file strictly after its first line feed: with a
LF-terminated header line, the byte region holding the data rows. -/
def afterFirstLF : List Char → List Char
  | [] => []
  | c :: rest => if c = '\n' then rest else afterFirstLF rest

/-- The data-row byte region of a CSV file whose header line is
terminated by a line feed. -/
def dataBytes (s : String) : String :=
  String.mk (afterFirstLF s.data)

end AddTimeToNiwa

/-! ## create_water_csv.py

Coordinates are rationals (Python floats); a `shapely` 3-D point is a
triple.  A GeoDataFrame is its CRS plus its geometry column; the gauge
point files of the pipeline carry no further attribute columns. -/

namespace CreateWaterCsv

/-- A 3-D point geometry (`shapely.geometry.Point` with z). -/
structure PointZ where
  x : ℚ
  y : ℚ
  z : ℚ
deriving DecidableEq

/-- One axis of a CRS as pyproj exposes it. -/
structure AxisInfo where
  unit_name : String
deriving DecidableEq

/-- A coordinate reference system: an identifier plus per-axis units;
two CRS objects are equal when both agree. -/
structure CRSInfo where
  srid : Nat
  axis_info : List AxisInfo
deriving DecidableEq

/-- A GeoDataFrame as used by the transform: its CRS and its geometry
column. -/
structure GeoFrame where
  crs : CRSInfo
  geometry : List PointZ
deriving DecidableEq

/-- Models `gpd.read_file(UNREAL_LEVEL_BOUNDS_PATH).geometry.centroid`: the
centroid of the unreal-level bounds file together with the CRS of that
file.  Reading the vector file and forming the centroid happen in
geopandas outside the arithmetic under study, so the centroid location
is a parameter of the embedded transform. -/
structure OriginLocation where
  crs : CRSInfo
  pt : PointZ
deriving DecidableEq

/-- Embeds `geometry.translate(xoff, yoff)`: zoff defaults to 0. -/
def translatePoint (xoff yoff : ℚ) (p : PointZ) : PointZ :=
  ⟨p.x + xoff, p.y + yoff, p.z⟩

/-- Embeds `geometry.scale(yfact=-1, origin=(0, 0))`: xfact and zfact default
to 1. -/
def scaleYNegPoint (p : PointZ) : PointZ :=
  ⟨1 * p.x, -1 * p.y, 1 * p.z⟩

/-- Embeds `transform_gdf_to_unreal_coordinates`: assert that the origin CRS
equals the point CRS, assert that every axis of that CRS is in metres
(`Except.error` models the `AssertionError`), then translate all
geometries by the negated origin coordinates and flip the y axis. -/
def transform_gdf_to_unreal_coordinates (unreal_origin_location : OriginLocation)
    (gdf : GeoFrame) : Except String GeoFrame :=
  if unreal_origin_location.crs = gdf.crs then
    if unreal_origin_location.crs.axis_info.all (fun ax => ax.unit_name == "metre") then
      let xoff := -unreal_origin_location.pt.x
      let yoff := -unreal_origin_location.pt.y
      let new_geometry := gdf.geometry.map (translatePoint xoff yoff)
      let flipped_geometry := new_geometry.map scaleYNegPoint
      Except.ok { gdf with geometry := flipped_geometry }
    else Except.error "CoordinateSystemMismatch"
  else Except.error "CoordinateSystemMismatch"

/-- The value of the caller's `gdf` argument after
`transform_gdf_to_unreal_coordinates` returns: the final statements
`gdf.geometry = new_geometry; return gdf` assign the transformed
geometry to the passed-in frame itself, so on success the argument
aliases the returned frame; the asserts fire before any mutation. -/
def transformArgPostState (unreal_origin_location : OriginLocation)
    (gdf : GeoFrame) : GeoFrame :=
  match transform_gdf_to_unreal_coordinates unreal_origin_location gdf with
  | Except.ok transformed => transformed
  | Except.error _ => gdf

/-- Squared distance of a query coordinate to a grid coordinate. -/
def distSq (q x : ℚ) : ℚ := (q - x) * (q - x)

/-- The index selected by `sel(..., method="nearest")` along one
coordinate axis: the index of the closest coordinate, ties resolved to
the later (for the monotonically increasing grids xarray requires, the
larger) coordinate, as pandas `get_indexer(method="nearest")` does. -/
def nearestIdx (q : ℚ) : List ℚ → ℕ
  | [] => 0
  | [_] => 0
  | x :: y :: rest =>
      let r := nearestIdx q (y :: rest)
      if distSq q ((y :: rest).getD r 0) ≤ distSq q x then r + 1 else 0

/-- The flood-model output dataset: the grid coordinates `xx_P0` and
`yy_P0`, the time coordinate (as the `str()` of its values), the water
depth variable `h_P0` indexed by (time index, x index, y index) and the
terrain elevation variable `zb_P0` indexed by (x index, y index). -/
structure FloodModelOutput where
  xx_P0 : List ℚ
  yy_P0 : List ℚ
  time : List String
  h_P0 : ℕ → ℕ → ℕ → ℚ
  zb_P0 : ℕ → ℕ → ℚ

/-- One row after sampling: the (possibly grid-snapped) 3-D point and
the mapping from time step to depth, in the dataset's time order. -/
structure SampledRow where
  geometry : PointZ
  depths : List (String × ℚ)
deriving DecidableEq

/-- Module constant of create_water_csv.py. -/
def LOCK_TO_GRID : Bool := false

/-- Embeds `extract_depths_for_single_point`: select the grid cell nearest to
the point along each coordinate axis, read the depth there for every
time step in the dataset's declared order, take x and y from the matched
cell when locking to the grid and from the query point otherwise, and
read z from the terrain elevation at the matched cell. -/
def extract_depths_for_single_point (model_output : FloodModelOutput)
    (lock_to_grid : Bool) (p : PointZ) : SampledRow :=
  let i := nearestIdx p.x model_output.xx_P0
  let j := nearestIdx p.y model_output.yy_P0
  let depths_for_times :=
    model_output.time.enum.map (fun te => (te.2, model_output.h_P0 te.1 i j))
  let x := if lock_to_grid then model_output.xx_P0.getD i 0 else p.x
  let y := if lock_to_grid then model_output.yy_P0.getD j 0 else p.y
  let z := model_output.zb_P0 i j
  ⟨⟨x, y, z⟩, depths_for_times⟩

/-- The time label hard-coded in the `drop` call of
`extract_depths_for_points` (line 115 of create_water_csv.py). -/
def initialTimeLabel : String := "2000-01-01T00:00:00.000000000"

/-- Embeds `extract_depths_for_points`: sample every gauge point, then drop the
column labelled `initialTimeLabel`.  `pandas.DataFrame.drop` raises a
`KeyError` (here `none`) when no column carries that label, i.e. when no
time value of the dataset prints as that string; otherwise every entry
with that label is removed from each row's mapping. -/
def extract_depths_for_points (gauge_points : List PointZ)
    (model_output : FloodModelOutput) : Option (List SampledRow) :=
  let point_depths :=
    gauge_points.map (extract_depths_for_single_point model_output LOCK_TO_GRID)
  if initialTimeLabel ∈ model_output.time then
    some (point_depths.map (fun r =>
      { r with depths := r.depths.filter (fun e => e.1 != initialTimeLabel) }))
  else none

/-- The per-time keys of each sampled row, in order. -/
def depthKeys (rows : List SampledRow) : List (List String) :=
  rows.map (fun r => r.depths.map Prod.fst)

/-- A concrete dataset whose first time step carries the label that
`extract_depths_for_points` drops. -/
def twoStepModel : FloodModelOutput :=
  ⟨[0], [0], ["2000-01-01T00:00:00.000000000", "2000-01-01T01:00:00.000000000"],
    fun _ _ _ => 0, fun _ _ => 0⟩

/-- A concrete dataset over a 2×2 grid with a single time step. -/
def gridModel : FloodModelOutput :=
  ⟨[0, 10], [0, 10], ["t0"], fun _ _ _ => 0, fun _ _ => 0⟩

/-- A row of the `gauge_depths` frame handed to `export_to_csv`: its
geometry and its value under each non-geometry column label. -/
structure DataRow where
  geometry : PointZ
  vals : String → ℚ

/-- The `gauge_depths` frame handed to `export_to_csv`: the column
labels in order (the geometry column among them) and the rows. -/
structure DepthFrame where
  cols : List String
  rows : List DataRow

/-- The value a row shows under a column after the assignments
`gauge_depths["x"] = geometry.x` etc. -/
def cellValue (r : DataRow) (c : String) : ℚ :=
  if c = "x" then r.geometry.x
  else if c = "y" then r.geometry.y
  else if c = "z" then r.geometry.z
  else r.vals c

/-- Embeds `export_to_csv` up to serialization: assigning `x`, `y`, `z` appends
those columns (the pipeline's frames do not already carry them), each
`columns.insert(0, columns.pop(columns.index(..)))` moves the first
occurrence of a label to the front, `drop(["geometry"], axis=1)` removes
the geometry column, and `to_csv(index=False)` emits the header row and
one data row per point with no index column. -/
def export_to_csv (gauge_depths : DepthFrame) : List String × List (List ℚ) :=
  let columns0 := gauge_depths.cols ++ ["x", "y", "z"]
  let columns1 := "z" :: columns0.erase "z"
  let columns2 := "y" :: columns1.erase "y"
  let columns3 := "x" :: columns2.erase "x"
  let final_columns := columns3.filter (fun c => c != "geometry")
  (final_columns, gauge_depths.rows.map (fun r => final_columns.map (cellValue r)))

end CreateWaterCsv

/-! ## spawn_water.py

The consumer parses the exported CSV back into `WaterSource` records.
The embedding starts from the tokenised CSV: the header cells and the
data rows with their fields already decoded by Python `float` into
rationals.  `datetime.strptime(time_column[:-3], "%Y-%m-%dT%H:%M:%S.%f")`
decodes the header cell minus its last three characters; the resulting
datetime is represented here by that source text. -/

namespace SpawnWater

/-- Multiplicative adjustment factor to go from units in metres to UE
Landscape scaled units (hand-calibrated). -/
def Z_TERRAIN_SCALE_FACTOR : ℚ := 1

/-- Additive adjustment factor to convert Z values to UE landscape units
(hand-calibrated). -/
def Z_TERRAIN_INTERCEPT : ℚ := 0

/-- A vector in unreal coordinates. -/
structure Vector where
  x : ℚ
  y : ℚ
  z : ℚ
deriving DecidableEq

/-- One (timestamp, depth) pair of a water source. -/
structure DepthTimeEntry where
  timestamp : String
  depth : ℚ
deriving DecidableEq

/-- A water source: its location and its depth series. -/
structure WaterSource where
  location : Vector
  depth_array : List DepthTimeEntry
deriving DecidableEq

/-- Embeds `time_column[:-3]`, the truncation of a nanosecond time label to
microseconds before `strptime`. -/
def stripNanosToMicros (s : String) : String := s.dropRight 3

/-- Embeds `[DepthTimeEntry(time_columns[i], float(depth_m) * 100) for i,
depth_m in enumerate(zt)]`: pairs each depth with the header timestamp
of the same position, converting metres to centimetres; an index beyond
the header timestamps raises `IndexError` (`none`). -/
def buildDepthArray (time_columns : List String) : ℕ → List ℚ → Option (List DepthTimeEntry)
  | _, [] => some []
  | i, depth_m :: zt =>
      match time_columns[i]? with
      | some t =>
          match buildDepthArray time_columns (i + 1) zt with
          | some rest => some (⟨t, depth_m * 100⟩ :: rest)
          | none => none
      | none => none

/-- One iteration of `for x, y, z, *zt in csv_reader`: a row with fewer
than three fields fails to unpack (`ValueError`, `none`); otherwise the
water source is built in centimetre units with z adjusted by the
hand-calibrated affine map. -/
def rowToWaterSource (time_columns : List String) (row : List ℚ) : Option WaterSource :=
  match row with
  | x :: y :: z :: zt =>
      match buildDepthArray time_columns 0 zt with
      | some depth_array =>
          some ⟨⟨x * 100, y * 100, z * Z_TERRAIN_SCALE_FACTOR + Z_TERRAIN_INTERCEPT⟩,
            depth_array⟩
      | none => none
  | _ => none

/-- The loop body of `read_water_sources_csv` over all data rows,
appending in order and aborting on the first failing row. -/
def readRows (time_columns : List String) : List (List ℚ) → Option (List WaterSource)
  | [] => some []
  | row :: rest =>
      match rowToWaterSource time_columns row, readRows time_columns rest with
      | some w, some ws => some (w :: ws)
      | _, _ => none

/-- Embeds `read_water_sources_csv` over the tokenised file: the header is
consumed as `_xc, _yc, _zc, *time_columns` (fewer than three header
cells raise `ValueError`), the time cells lose their last three
characters, and every data row becomes one `WaterSource`. -/
def read_water_sources_csv (header : List String) (rows : List (List ℚ)) :
    Option (List WaterSource) :=
  match header with
  | _xc :: _yc :: _zc :: time_cells =>
      readRows (time_cells.map stripNanosToMicros) rows
  | _ => none

end SpawnWater

/-! ## Theorems -/

/-- Appending one image at a time from the left is mapping. -/
theorem foldl_push_eq_append_map {α β : Type} (f : α → β) :
    ∀ (l : List α) (acc : List β),
      l.foldl (fun a b => a ++ [f b]) acc = acc ++ l.map f := by
  intro l
  induction l with
  | nil => simp
  | cons x xs ih =>
      intro acc
      simp only [List.foldl_cons, List.map_cons, ih]
      simp

/-- The accumulating loop of timestamp derivation is a map over the band
indices. -/
theorem generate_eq_map (band_indices : List Int) (ref : PyTime.DateTime) :
    AddTimeToNiwa.generate_time_stamps_from_band_indices band_indices ref
      = band_indices.map (fun b => PyTime.strfIso (PyTime.addHours ref (b - 1))) := by
  unfold AddTimeToNiwa.generate_time_stamps_from_band_indices
  simpa using foldl_push_eq_append_map
    (fun b => PyTime.strfIso (PyTime.addHours ref (b - 1))) band_indices []

/-- C1: for every list of integer band indices and every reference
epoch, timestamp derivation maps each band index `i` to the ISO-8601
string of `reference_epoch + (i - 1)` hours (strftime
"%Y-%m-%dT%H:%M:%S.%f"); with the default epoch 2000-01-01T00:00:00,
band index 1 yields the epoch exactly, "2000-01-01T00:00:00.000000",
and band index 25 yields epoch + 24 hours. -/
theorem c1_timestamp_derivation :
    (∀ (band_indices : List Int) (ref : PyTime.DateTime),
        AddTimeToNiwa.generate_time_stamps_from_band_indices band_indices ref
          = band_indices.map (fun b => PyTime.strfIso (PyTime.addHours ref (b - 1))))
    ∧ AddTimeToNiwa.generate_time_stamps_from_band_indices [1]
        AddTimeToNiwa.referenceEpoch2000 = ["2000-01-01T00:00:00.000000"]
    ∧ AddTimeToNiwa.generate_time_stamps_from_band_indices [25]
        AddTimeToNiwa.referenceEpoch2000 = ["2000-01-02T00:00:00.000000"] := by
  exact ⟨generate_eq_map, by decide, by decide⟩

/-- On success, the transform maps each geometry to the translated and
y-flipped point. -/
theorem transform_ok_geometry (o : CreateWaterCsv.OriginLocation)
    (g out : CreateWaterCsv.GeoFrame)
    (h : CreateWaterCsv.transform_gdf_to_unreal_coordinates o g = Except.ok out) :
    out = { g with geometry := g.geometry.map (fun p =>
      CreateWaterCsv.scaleYNegPoint
        (CreateWaterCsv.translatePoint (-o.pt.x) (-o.pt.y) p)) } := by
  unfold CreateWaterCsv.transform_gdf_to_unreal_coordinates at h
  split_ifs at h
  simp only [List.map_map, Except.ok.injEq] at h
  rw [← h]
  rfl

/-- C3: for every point `p` and origin `o` (same CRS, metric units),
normalize produces `new_x = p.x - o.x` and `new_y = -(p.y - o.y)`; x and
z are never sign-flipped and z is unchanged by normalization. -/
theorem c3_normalize_linear (o : CreateWaterCsv.OriginLocation)
    (g out : CreateWaterCsv.GeoFrame)
    (h : CreateWaterCsv.transform_gdf_to_unreal_coordinates o g = Except.ok out) :
    out.geometry = g.geometry.map (fun p =>
      { x := p.x - o.pt.x, y := -(p.y - o.pt.y), z := p.z : CreateWaterCsv.PointZ }) := by
  rw [transform_ok_geometry o g out h]
  apply List.map_congr_left
  intro p _
  unfold CreateWaterCsv.scaleYNegPoint CreateWaterCsv.translatePoint
  simp only [CreateWaterCsv.PointZ.mk.injEq]
  refine ⟨by ring, by ring, by ring⟩

/-- Witness for C3 at a concrete frame and origin. -/
theorem c3_normalize_linear_witness :
    CreateWaterCsv.transform_gdf_to_unreal_coordinates
        ⟨⟨2193, [⟨"metre"⟩, ⟨"metre"⟩]⟩, ⟨10, 20, 0⟩⟩
        ⟨⟨2193, [⟨"metre"⟩, ⟨"metre"⟩]⟩, [⟨1, 2, 3⟩, ⟨4, 5, 6⟩]⟩
      = Except.ok ⟨⟨2193, [⟨"metre"⟩, ⟨"metre"⟩]⟩, [⟨-9, 18, 3⟩, ⟨-6, 15, 6⟩]⟩
    ∧ (⟨⟨2193, [⟨"metre"⟩, ⟨"metre"⟩]⟩, [⟨-9, 18, 3⟩, ⟨-6, 15, 6⟩]⟩ :
          CreateWaterCsv.GeoFrame).geometry
        = ([⟨1, 2, 3⟩, ⟨4, 5, 6⟩] : List CreateWaterCsv.PointZ).map (fun p =>
            { x := p.x - 10, y := -(p.y - 20), z := p.z : CreateWaterCsv.PointZ }) :=
  ⟨by decide, c3_normalize_linear
    ⟨⟨2193, [⟨"metre"⟩, ⟨"metre"⟩]⟩, ⟨10, 20, 0⟩⟩
    ⟨⟨2193, [⟨"metre"⟩, ⟨"metre"⟩]⟩, [⟨1, 2, 3⟩, ⟨4, 5, 6⟩]⟩
    ⟨⟨2193, [⟨"metre"⟩, ⟨"metre"⟩]⟩, [⟨-9, 18, 3⟩, ⟨-6, 15, 6⟩]⟩ (by decide)⟩

/-- C4: the transform fails (with the coordinate-system-mismatch error,
the only error it raises) exactly when the CRS of the points and the
origin differ or some axis of either CRS is not in metres; when the
precondition holds no error is raised. -/
theorem c4_crs_precondition (o : CreateWaterCsv.OriginLocation)
    (g : CreateWaterCsv.GeoFrame) :
    ((CreateWaterCsv.transform_gdf_to_unreal_coordinates o g).isOk = false
      ↔ (o.crs ≠ g.crs
          ∨ (∃ ax ∈ o.crs.axis_info, ax.unit_name ≠ "metre")
          ∨ (∃ ax ∈ g.crs.axis_info, ax.unit_name ≠ "metre")))
    ∧ ∀ e, CreateWaterCsv.transform_gdf_to_unreal_coordinates o g = Except.error e
        → e = "CoordinateSystemMismatch" := by
  have hok : (CreateWaterCsv.transform_gdf_to_unreal_coordinates o g).isOk = true
      ↔ (o.crs = g.crs ∧ ∀ ax ∈ o.crs.axis_info, ax.unit_name = "metre") := by
    unfold CreateWaterCsv.transform_gdf_to_unreal_coordinates
    split_ifs with h1 h2
    · simp only [Except.isOk, Except.toBool, true_iff]
      exact ⟨h1, fun ax hax => by simpa using List.all_eq_true.mp h2 ax hax⟩
    · simp only [Except.isOk, Except.toBool, Bool.false_eq_true, false_iff, not_and]
      intro _ hall
      exact h2 (List.all_eq_true.mpr (fun ax hax => by simpa using hall ax hax))
    · simp only [Except.isOk, Except.toBool, Bool.false_eq_true, false_iff, not_and]
      intro hc
      exact absurd hc h1
  constructor
  · rw [Bool.eq_false_iff, Ne, hok]
    constructor
    · intro hfail
      by_cases hcrs : o.crs = g.crs
      · by_cases hall : ∀ ax ∈ o.crs.axis_info, ax.unit_name = "metre"
        · exact absurd ⟨hcrs, hall⟩ hfail
        · push_neg at hall
          obtain ⟨ax, hax, hne⟩ := hall
          exact Or.inr (Or.inl ⟨ax, hax, hne⟩)
      · exact Or.inl hcrs
    · rintro (hne | ⟨ax, hax, hne⟩ | ⟨ax, hax, hne⟩) ⟨hcrs, hall⟩
      · exact hne hcrs
      · exact hne (hall ax hax)
      · exact hne (hall ax (by rw [hcrs]; exact hax))
  · intro e he
    unfold CreateWaterCsv.transform_gdf_to_unreal_coordinates at he
    split_ifs at he
    all_goals first
      | exact absurd he (fun hc => Except.noConfusion hc)
      | exact (Except.error.inj he).symm

/-- Witness for C4 at a mismatching concrete input. -/
theorem c4_crs_precondition_witness :
    ((⟨2193, [⟨"metre"⟩]⟩ : CreateWaterCsv.CRSInfo) ≠ ⟨4326, [⟨"degree"⟩]⟩)
    ∧ (CreateWaterCsv.transform_gdf_to_unreal_coordinates
        ⟨⟨2193, [⟨"metre"⟩]⟩, ⟨0, 0, 0⟩⟩ ⟨⟨4326, [⟨"degree"⟩]⟩, [⟨1, 2, 3⟩]⟩).isOk
        = false :=
  ⟨by decide,
    (c4_crs_precondition ⟨⟨2193, [⟨"metre"⟩]⟩, ⟨0, 0, 0⟩⟩
      ⟨⟨4326, [⟨"degree"⟩]⟩, [⟨1, 2, 3⟩]⟩).1.mpr (Or.inl (by decide))⟩

/-- Counterexample to C7 as stated: the Python function assigns the new
geometry to the caller's frame before returning it, so after a
successful call the argument no longer holds its original geometries —
the input sequence is not left unmodified. -/
theorem c7_counterexample :
    CreateWaterCsv.transformArgPostState
        ⟨⟨2193, [⟨"metre"⟩]⟩, ⟨0, 0, 0⟩⟩ ⟨⟨2193, [⟨"metre"⟩]⟩, [⟨1, 2, 3⟩]⟩
      ≠ ⟨⟨2193, [⟨"metre"⟩]⟩, [⟨1, 2, 3⟩]⟩ := by
  decide

/-- C7 amended: normalize is order-preserving — the i-th output is the
image of the i-th input — but it is not pure: the caller's frame after
the call holds the transformed geometry (the function mutates its
argument in place and returns it). -/
theorem c7_order_preserving_but_mutating (o : CreateWaterCsv.OriginLocation)
    (g out : CreateWaterCsv.GeoFrame)
    (h : CreateWaterCsv.transform_gdf_to_unreal_coordinates o g = Except.ok out) :
    out.geometry.length = g.geometry.length
    ∧ (∀ i : ℕ, out.geometry[i]? = (g.geometry[i]?).map (fun p =>
        CreateWaterCsv.scaleYNegPoint
          (CreateWaterCsv.translatePoint (-o.pt.x) (-o.pt.y) p)))
    ∧ CreateWaterCsv.transformArgPostState o g = out := by
  rw [transform_ok_geometry o g out h]
  refine ⟨by simp, fun i => by simp, ?_⟩
  unfold CreateWaterCsv.transformArgPostState
  rw [h, transform_ok_geometry o g out h]

/-- Witness for the amended C7 at a concrete frame and origin. -/
theorem c7_order_preserving_but_mutating_witness :
    (⟨⟨2193, [⟨"metre"⟩]⟩, [⟨3, -4, 5⟩]⟩ : CreateWaterCsv.GeoFrame).geometry.length
        = (⟨⟨2193, [⟨"metre"⟩]⟩, [⟨1, 2, 5⟩]⟩ : CreateWaterCsv.GeoFrame).geometry.length
    ∧ (∀ i : ℕ,
        (⟨⟨2193, [⟨"metre"⟩]⟩, [⟨3, -4, 5⟩]⟩ : CreateWaterCsv.GeoFrame).geometry[i]?
          = ((⟨⟨2193, [⟨"metre"⟩]⟩, [⟨1, 2, 5⟩]⟩ :
              CreateWaterCsv.GeoFrame).geometry[i]?).map (fun p =>
            CreateWaterCsv.scaleYNegPoint
              (CreateWaterCsv.translatePoint (-(-2 : ℚ)) (-(-2 : ℚ)) p)))
    ∧ CreateWaterCsv.transformArgPostState
        ⟨⟨2193, [⟨"metre"⟩]⟩, ⟨-2, -2, 0⟩⟩ ⟨⟨2193, [⟨"metre"⟩]⟩, [⟨1, 2, 5⟩]⟩
        = ⟨⟨2193, [⟨"metre"⟩]⟩, [⟨3, -4, 5⟩]⟩ :=
  c7_order_preserving_but_mutating
    ⟨⟨2193, [⟨"metre"⟩]⟩, ⟨-2, -2, 0⟩⟩ ⟨⟨2193, [⟨"metre"⟩]⟩, [⟨1, 2, 5⟩]⟩
    ⟨⟨2193, [⟨"metre"⟩]⟩, [⟨3, -4, 5⟩]⟩ (by decide)

/-- C9: for every exported table (over the pipeline's frame shape — the
geometry column followed by the time labels), the column order is fixed:
x, y, z first, then one column per time label in the original label
order; the header row is always present as the first component, and no
trailing synthetic column (geometry or index) appears: the geometry
column is gone and every data row lists exactly the header's columns. -/
theorem c9_export_column_order (labels : List String) (df : CreateWaterCsv.DepthFrame)
    (hcols : df.cols = "geometry" :: labels)
    (hx : "x" ∉ labels) (hy : "y" ∉ labels) (hz : "z" ∉ labels)
    (hg : "geometry" ∉ labels) :
    (CreateWaterCsv.export_to_csv df).1 = "x" :: "y" :: "z" :: labels
    ∧ "geometry" ∉ (CreateWaterCsv.export_to_csv df).1
    ∧ (CreateWaterCsv.export_to_csv df).2
        = df.rows.map (fun r =>
            r.geometry.x :: r.geometry.y :: r.geometry.z :: labels.map r.vals) := by
  have h1 : (("geometry" :: labels) ++ ["x", "y", "z"]).erase "z"
      = "geometry" :: (labels ++ ["x", "y"]) := by
    rw [List.cons_append, List.erase_cons_tail (by decide),
      List.erase_append_right _ hz]
    rfl
  have h2 : ("z" :: "geometry" :: (labels ++ ["x", "y"])).erase "y"
      = "z" :: "geometry" :: (labels ++ ["x"]) := by
    rw [List.erase_cons_tail (by decide), List.erase_cons_tail (by decide),
      List.erase_append_right _ hy]
    rfl
  have h3 : ("y" :: "z" :: "geometry" :: (labels ++ ["x"])).erase "x"
      = "y" :: "z" :: "geometry" :: labels := by
    rw [List.erase_cons_tail (by decide), List.erase_cons_tail (by decide),
      List.erase_cons_tail (by decide), List.erase_append_right _ hx]
    simp
  have hfilter : labels.filter (fun c => c != "geometry") = labels :=
    List.filter_eq_self.mpr (fun a ha => by
      simp only [bne_iff_ne, ne_eq]
      exact fun hgeo => hg (hgeo ▸ ha))
  have hfinal : (CreateWaterCsv.export_to_csv df).1 = "x" :: "y" :: "z" :: labels := by
    simp only [CreateWaterCsv.export_to_csv, hcols, h1, h2, h3]
    simp [List.filter_cons, hfilter]
  refine ⟨hfinal, by rw [hfinal]; simp [hg], ?_⟩
  have hrow : ∀ r : CreateWaterCsv.DataRow,
      ("x" :: "y" :: "z" :: labels).map (CreateWaterCsv.cellValue r)
        = r.geometry.x :: r.geometry.y :: r.geometry.z :: labels.map r.vals := by
    intro r
    simp only [List.map_cons]
    have hvx : CreateWaterCsv.cellValue r "x" = r.geometry.x := rfl
    have hvy : CreateWaterCsv.cellValue r "y" = r.geometry.y := rfl
    have hvz : CreateWaterCsv.cellValue r "z" = r.geometry.z := rfl
    rw [hvx, hvy, hvz]
    simp only [List.cons.injEq, true_and]
    apply List.map_congr_left
    intro c hc
    have hncx : ¬c = "x" := fun hcx => hx (hcx ▸ hc)
    have hncy : ¬c = "y" := fun hcy => hy (hcy ▸ hc)
    have hncz : ¬c = "z" := fun hcz => hz (hcz ▸ hc)
    unfold CreateWaterCsv.cellValue
    rw [if_neg hncx, if_neg hncy, if_neg hncz]
  have hfst : (CreateWaterCsv.export_to_csv df).2
      = df.rows.map (fun r => (CreateWaterCsv.export_to_csv df).1.map
          (CreateWaterCsv.cellValue r)) := rfl
  rw [hfst]
  apply List.map_congr_left
  intro r _
  rw [hfinal, hrow]

/-- Witness for C9 at a concrete two-label frame. -/
theorem c9_export_column_order_witness :
    (CreateWaterCsv.export_to_csv
        ⟨["geometry", "t1", "t2"],
          [⟨⟨1, 2, 3⟩, fun c => if c = "t1" then 7 else 8⟩]⟩).1
      = "x" :: "y" :: "z" :: ["t1", "t2"]
    ∧ "geometry" ∉ (CreateWaterCsv.export_to_csv
        ⟨["geometry", "t1", "t2"],
          [⟨⟨1, 2, 3⟩, fun c => if c = "t1" then 7 else 8⟩]⟩).1
    ∧ (CreateWaterCsv.export_to_csv
        ⟨["geometry", "t1", "t2"],
          [⟨⟨1, 2, 3⟩, fun c => if c = "t1" then 7 else 8⟩]⟩).2
        = ([⟨⟨1, 2, 3⟩, fun c => if c = "t1" then 7 else 8⟩] :
            List CreateWaterCsv.DataRow).map (fun r =>
              r.geometry.x :: r.geometry.y :: r.geometry.z
                :: ["t1", "t2"].map r.vals) :=
  c9_export_column_order ["t1", "t2"]
    ⟨["geometry", "t1", "t2"], [⟨⟨1, 2, 3⟩, fun c => if c = "t1" then 7 else 8⟩]⟩
    rfl (by decide) (by decide) (by decide) (by decide)

/-- A successful `buildDepthArray` pairs the i-th remaining header
timestamp with 100 times the i-th depth. -/
theorem buildDepthArray_eq_zipWith (tc : List String) :
    ∀ (zt : List ℚ) (i : ℕ) (arr : List SpawnWater.DepthTimeEntry),
      SpawnWater.buildDepthArray tc i zt = some arr →
      arr = List.zipWith (fun t d => ⟨t, d * 100⟩) (tc.drop i) zt := by
  intro zt
  induction zt with
  | nil =>
      intro i arr h
      simp only [SpawnWater.buildDepthArray, Option.some.injEq] at h
      simp [← h]
  | cons d ds ih =>
      intro i arr h
      unfold SpawnWater.buildDepthArray at h
      cases htc : tc[i]? with
      | none => rw [htc] at h; exact absurd h (by simp)
      | some t =>
          rw [htc] at h
          cases hrec : SpawnWater.buildDepthArray tc (i + 1) ds with
          | none => rw [hrec] at h; exact absurd h (by simp)
          | some rest =>
              rw [hrec] at h
              simp only [Option.some.injEq] at h
              have hi : i < tc.length := by
                by_contra hge
                rw [List.getElem?_eq_none (by omega)] at htc
                exact absurd htc (by simp)
              have hti : t = tc[i] := by
                have h0 := List.getElem?_eq_getElem hi
                rw [htc] at h0
                exact (Option.some.inj h0)
              rw [List.drop_eq_getElem_cons hi, ← hti, List.zipWith_cons_cons,
                ← h, ih (i + 1) rest hrec]

/-- A successful `readRows` sends the k-th row to the k-th water source
through `rowToWaterSource`. -/
theorem readRows_get (tc : List String) :
    ∀ (rows : List (List ℚ)) (out : List SpawnWater.WaterSource),
      SpawnWater.readRows tc rows = some out →
      ∀ (k : ℕ) (row : List ℚ), rows[k]? = some row →
        ∃ w, SpawnWater.rowToWaterSource tc row = some w ∧ out[k]? = some w := by
  intro rows
  induction rows with
  | nil => intro out h k row hk; simp at hk
  | cons r rs ih =>
      intro out h k row hk
      unfold SpawnWater.readRows at h
      cases h1 : SpawnWater.rowToWaterSource tc r with
      | none => rw [h1] at h; exact absurd h (by simp)
      | some w =>
          rw [h1] at h
          cases h2 : SpawnWater.readRows tc rs with
          | none => rw [h2] at h; exact absurd h (by simp)
          | some ws =>
              rw [h2] at h
              simp only [Option.some.injEq] at h
              cases k with
              | zero =>
                  simp only [List.getElem?_cons_zero, Option.some.injEq] at hk
                  refine ⟨w, ?_, ?_⟩
                  · rw [← hk]
                    exact h1
                  · rw [← h]
                    simp
              | succ k2 =>
                  have hk2 : rs[k2]? = some row := by simpa using hk
                  obtain ⟨w2, hw2, hout2⟩ := ih ws h2 k2 row hk2
                  exact ⟨w2, hw2, by rw [← h]; simpa using hout2⟩

/-- C10: for every data row (x, y, z, d_1, ..., d_n) of a parsed
water-sources CSV, the consumer constructs a WaterSource whose location
is exactly (100·x, 100·y, z·Z_TERRAIN_SCALE_FACTOR +
Z_TERRAIN_INTERCEPT) — metres to centimetres in x and y, the calibrated
affine map on z only — and whose depth_array pairs the i-th header
timestamp (the header cell minus its last three characters) with 100·d_i,
preserving the header's column order. -/
theorem c10_water_source_construction (header : List String) (rows : List (List ℚ))
    (out : List SpawnWater.WaterSource)
    (h : SpawnWater.read_water_sources_csv header rows = some out) :
    ∀ (k : ℕ) (x y z : ℚ) (zt : List ℚ), rows[k]? = some (x :: y :: z :: zt) →
      out[k]? = some
        ⟨⟨x * 100, y * 100,
            z * SpawnWater.Z_TERRAIN_SCALE_FACTOR + SpawnWater.Z_TERRAIN_INTERCEPT⟩,
          List.zipWith (fun t d => ⟨t, d * 100⟩)
            ((header.drop 3).map SpawnWater.stripNanosToMicros) zt⟩ := by
  intro k x y z zt hk
  obtain ⟨a, b, c, tcells, rfl⟩ : ∃ a b c tcells, header = a :: b :: c :: tcells := by
    match header, h with
    | a :: b :: c :: tcells, _ => exact ⟨a, b, c, tcells, rfl⟩
  have h2 : SpawnWater.readRows (tcells.map SpawnWater.stripNanosToMicros) rows
      = some out := h
  obtain ⟨w, hw, hout⟩ := readRows_get _ rows out h2 k _ hk
  simp only [SpawnWater.rowToWaterSource] at hw
  cases hb : SpawnWater.buildDepthArray
      (tcells.map SpawnWater.stripNanosToMicros) 0 zt with
  | none => rw [hb] at hw; exact absurd hw (by simp)
  | some arr =>
      rw [hb] at hw
      simp only [Option.some.injEq] at hw
      rw [hout, ← hw, buildDepthArray_eq_zipWith _ zt 0 arr hb]
      rfl

/-- Witness for C10 at a concrete header and row. -/
theorem c10_water_source_construction_witness :
    SpawnWater.read_water_sources_csv
        ["x", "y", "z", "2000-01-01T01:00:00.000000000"] [[1, 2, 3, 7]]
      = some [⟨⟨100, 200, 3 * SpawnWater.Z_TERRAIN_SCALE_FACTOR
            + SpawnWater.Z_TERRAIN_INTERCEPT⟩,
          [⟨"2000-01-01T01:00:00.000000", 700⟩]⟩]
    ∧ ([[1, 2, 3, 7]] : List (List ℚ))[0]? = some (1 :: 2 :: 3 :: [7])
    ∧ ([⟨⟨100, 200, 3 * SpawnWater.Z_TERRAIN_SCALE_FACTOR
            + SpawnWater.Z_TERRAIN_INTERCEPT⟩,
          [⟨"2000-01-01T01:00:00.000000", 700⟩]⟩] :
        List SpawnWater.WaterSource)[0]?
        = some ⟨⟨1 * 100, 2 * 100, 3 * SpawnWater.Z_TERRAIN_SCALE_FACTOR
            + SpawnWater.Z_TERRAIN_INTERCEPT⟩,
          List.zipWith (fun t d => ⟨t, d * 100⟩)
            ((["x", "y", "z", "2000-01-01T01:00:00.000000000"].drop 3).map
              SpawnWater.stripNanosToMicros) [7]⟩ := by
  refine ⟨by decide, by decide, ?_⟩
  have h0 := c10_water_source_construction
    ["x", "y", "z", "2000-01-01T01:00:00.000000000"] [[1, 2, 3, 7]]
    [⟨⟨100, 200, 3 * SpawnWater.Z_TERRAIN_SCALE_FACTOR
        + SpawnWater.Z_TERRAIN_INTERCEPT⟩,
      [⟨"2000-01-01T01:00:00.000000", 700⟩]⟩] (by decide) 0 1 2 3 [7] (by decide)
  simpa using h0

/-- The per-axis nearest index minimises the squared distance to the
query coordinate over the whole coordinate list. -/
theorem nearestIdx_min (q : ℚ) :
    ∀ (xs : List ℚ) (a : ℕ), a < xs.length →
      CreateWaterCsv.distSq q (xs.getD (CreateWaterCsv.nearestIdx q xs) 0)
        ≤ CreateWaterCsv.distSq q (xs.getD a 0) := by
  intro xs
  induction xs with
  | nil => intro a ha; simp at ha
  | cons x rest ih =>
      cases rest with
      | nil =>
          intro a ha
          have ha0 : a = 0 := by simpa using ha
          subst ha0
          simp [CreateWaterCsv.nearestIdx]
      | cons y rest2 =>
          intro a ha
          simp only [CreateWaterCsv.nearestIdx]
          split_ifs with hcmp
          · cases a with
            | zero => simpa using hcmp
            | succ a2 =>
                have ha2 : a2 < (y :: rest2).length := by simpa using ha
                simpa using ih a2 ha2
          · cases a with
            | zero => simp
            | succ a2 =>
                have ha2 : a2 < (y :: rest2).length := by simpa using ha
                have hlt := le_of_lt (not_le.mp hcmp)
                simpa using le_trans hlt (ih a2 ha2)

/-- C5: for every query point and every time step of the field (in the
field's declared order), sampling returns exactly the scalar stored at
the grid cell selected along each axis — no interpolation between cells
— and that cell is the Euclidean-nearest grid-cell centre: its squared
distance to the query point is minimal over all grid cells. -/
theorem c5_nearest_neighbor_sampling (model : CreateWaterCsv.FloodModelOutput)
    (lock_to_grid : Bool) (p : CreateWaterCsv.PointZ) :
    (∀ k : ℕ, k < model.time.length →
      (CreateWaterCsv.extract_depths_for_single_point model lock_to_grid p).depths[k]?
        = some (model.time.getD k "",
            model.h_P0 k (CreateWaterCsv.nearestIdx p.x model.xx_P0)
              (CreateWaterCsv.nearestIdx p.y model.yy_P0)))
    ∧ (∀ a b : ℕ, a < model.xx_P0.length → b < model.yy_P0.length →
        CreateWaterCsv.distSq p.x
            (model.xx_P0.getD (CreateWaterCsv.nearestIdx p.x model.xx_P0) 0)
          + CreateWaterCsv.distSq p.y
              (model.yy_P0.getD (CreateWaterCsv.nearestIdx p.y model.yy_P0) 0)
        ≤ CreateWaterCsv.distSq p.x (model.xx_P0.getD a 0)
          + CreateWaterCsv.distSq p.y (model.yy_P0.getD b 0)) := by
  constructor
  · intro k hk
    unfold CreateWaterCsv.extract_depths_for_single_point
    simp only [List.getElem?_map, List.enum, List.getElem?_enumFrom,
      List.getElem?_eq_getElem hk, Option.map_some]
    simp [List.getD_eq_getElem?_getD, List.getElem?_eq_getElem hk]
  · intro a b ha hb
    exact add_le_add (nearestIdx_min p.x model.xx_P0 a ha)
      (nearestIdx_min p.y model.yy_P0 b hb)

/-- Witness for C5 on the 2×2 grid. -/
theorem c5_nearest_neighbor_sampling_witness :
    (CreateWaterCsv.extract_depths_for_single_point CreateWaterCsv.gridModel false
        ⟨1, 1, 99⟩).depths[0]?
      = some (CreateWaterCsv.gridModel.time.getD 0 "",
          CreateWaterCsv.gridModel.h_P0 0
            (CreateWaterCsv.nearestIdx 1 CreateWaterCsv.gridModel.xx_P0)
            (CreateWaterCsv.nearestIdx 1 CreateWaterCsv.gridModel.yy_P0))
    ∧ (CreateWaterCsv.distSq 1
          (CreateWaterCsv.gridModel.xx_P0.getD
            (CreateWaterCsv.nearestIdx 1 CreateWaterCsv.gridModel.xx_P0) 0)
        + CreateWaterCsv.distSq 1
            (CreateWaterCsv.gridModel.yy_P0.getD
              (CreateWaterCsv.nearestIdx 1 CreateWaterCsv.gridModel.yy_P0) 0)
        ≤ CreateWaterCsv.distSq 1 (CreateWaterCsv.gridModel.xx_P0.getD 1 0)
          + CreateWaterCsv.distSq 1 (CreateWaterCsv.gridModel.yy_P0.getD 1 0)) :=
  ⟨(c5_nearest_neighbor_sampling CreateWaterCsv.gridModel false ⟨1, 1, 99⟩).1 0
      (by decide),
    (c5_nearest_neighbor_sampling CreateWaterCsv.gridModel false ⟨1, 1, 99⟩).2 1 1
      (by decide) (by decide)⟩

/-- Counterexample to C6 as stated: for a field whose time steps include
"2000-01-01T00:00:00.000000000", the sampled rows carry no entry for
that time step — the hard-coded `drop` removes it, so the mapping does
not have one entry per time step of the source field. -/
theorem c6_counterexample :
    CreateWaterCsv.initialTimeLabel ∈ CreateWaterCsv.twoStepModel.time
    ∧ (CreateWaterCsv.extract_depths_for_points [⟨1, 1, 0⟩]
          CreateWaterCsv.twoStepModel).map CreateWaterCsv.depthKeys
        = some [["2000-01-01T01:00:00.000000000"]] := by
  exact ⟨by decide, by decide⟩

/-- The values of an enumeration filtered on a value predicate are the
filtered values. -/
theorem enumFrom_filter_snd_map_snd {α : Type} (p : α → Bool) :
    ∀ (l : List α) (n : ℕ),
      (((List.enumFrom n l).filter (fun te => p te.2)).map Prod.snd) = l.filter p := by
  intro l
  induction l with
  | nil => intro n; rfl
  | cons a l2 ih =>
      intro n
      simp only [List.enumFrom, List.filter_cons]
      by_cases hp : p a
      · simp only [hp, if_true]
        simp [ih (n + 1)]
      · simp only [hp, if_false]
        simp [ih (n + 1), hp]

/-- C6 amended: the sampling pass succeeds only when the source field
contains the time step labelled "2000-01-01T00:00:00.000000000"; it
then produces one row per point whose mapping has exactly one entry for
each OTHER time step of the source field, in the field's time order —
the entry for that initial time step is dropped. -/
theorem c6_one_entry_per_remaining_time_step
    (model : CreateWaterCsv.FloodModelOutput) (pts : List CreateWaterCsv.PointZ)
    (out : List CreateWaterCsv.SampledRow)
    (h : CreateWaterCsv.extract_depths_for_points pts model = some out) :
    CreateWaterCsv.initialTimeLabel ∈ model.time
    ∧ out.length = pts.length
    ∧ ∀ r ∈ out, r.depths.map Prod.fst
        = model.time.filter (fun t => t != CreateWaterCsv.initialTimeLabel) := by
  unfold CreateWaterCsv.extract_depths_for_points at h
  split_ifs at h with hmem
  · have hout := Option.some.inj h
    refine ⟨hmem, by simp [← hout], ?_⟩
    intro r hr
    rw [← hout] at hr
    simp only [List.map_map, List.mem_map] at hr
    obtain ⟨p0, _, hp0⟩ := hr
    rw [← hp0]
    simp only [Function.comp, CreateWaterCsv.extract_depths_for_single_point]
    rw [List.filter_map, List.map_map]
    have hcomp :
        (Prod.fst ∘ fun te : ℕ × String =>
            (te.2, model.h_P0 te.1 (CreateWaterCsv.nearestIdx p0.x model.xx_P0)
              (CreateWaterCsv.nearestIdx p0.y model.yy_P0)))
          = Prod.snd := rfl
    rw [hcomp]
    have hpred :
        ((fun e : String × ℚ => e.1 != CreateWaterCsv.initialTimeLabel) ∘
            fun te : ℕ × String =>
              (te.2, model.h_P0 te.1 (CreateWaterCsv.nearestIdx p0.x model.xx_P0)
                (CreateWaterCsv.nearestIdx p0.y model.yy_P0)))
          = fun te : ℕ × String => te.2 != CreateWaterCsv.initialTimeLabel := rfl
    rw [hpred, List.enum]
    exact enumFrom_filter_snd_map_snd
      (fun t => t != CreateWaterCsv.initialTimeLabel) model.time 0

/-- Witness for the amended C6 on the two-time-step dataset. -/
theorem c6_one_entry_per_remaining_time_step_witness :
    CreateWaterCsv.initialTimeLabel ∈ CreateWaterCsv.twoStepModel.time
    ∧ ([⟨⟨1, 1, 0⟩, [("2000-01-01T01:00:00.000000000", 0)]⟩] :
          List CreateWaterCsv.SampledRow).length
        = ([⟨1, 1, 0⟩] : List CreateWaterCsv.PointZ).length
    ∧ ∀ r ∈ ([⟨⟨1, 1, 0⟩, [("2000-01-01T01:00:00.000000000", 0)]⟩] :
          List CreateWaterCsv.SampledRow),
        r.depths.map Prod.fst
          = CreateWaterCsv.twoStepModel.time.filter
              (fun t => t != CreateWaterCsv.initialTimeLabel) :=
  c6_one_entry_per_remaining_time_step CreateWaterCsv.twoStepModel [⟨1, 1, 0⟩]
    [⟨⟨1, 1, 0⟩, [("2000-01-01T01:00:00.000000000", 0)]⟩] (by decide)

/-- A field the writer leaves unquoted has no delimiter, quote or
line-break characters. -/
theorem needsQuote_cons_false {c : Char} {f : List Char}
    (h : Csv.needsQuote (c :: f) = false) :
    ¬c = ',' ∧ ¬c = '"' ∧ ¬c = '\r' ∧ ¬c = '\n' ∧ Csv.needsQuote f = false := by
  unfold Csv.needsQuote at h
  simp only [List.any_cons, Bool.or_eq_false_iff, decide_eq_false_iff_not] at h
  obtain ⟨⟨⟨⟨ha, hb⟩, hc⟩, hd⟩, hf⟩ := h
  exact ⟨ha, hb, hc, hd, hf⟩

/-- An unquoted field is written as itself. -/
theorem writeField_eq_self {f : List Char} (h : Csv.needsQuote f = false) :
    Csv.writeField f = f := by
  unfold Csv.writeField
  rw [h]
  rfl


/-- Step: a quote at the start of a field opens a quoted field. -/
theorem parseAllGo_start_quote (f : List Char) (fields : List (List Char))
    (rows : List (List (List Char))) (rest : List Char) :
    Csv.parseAllGo .start f fields rows ('"' :: rest)
      = Csv.parseAllGo .quo f fields rows rest := rfl

/-- Step: a comma at the start of a field ends an empty field. -/
theorem parseAllGo_start_comma (f : List Char) (fields : List (List Char))
    (rows : List (List (List Char))) (rest : List Char) :
    Csv.parseAllGo .start f fields rows (',' :: rest)
      = Csv.parseAllGo .start [] (fields ++ [f]) rows rest := rfl

/-- Step: a carriage return at the start of a field ends the row. -/
theorem parseAllGo_start_cr (f : List Char) (fields : List (List Char))
    (rows : List (List (List Char))) (rest : List Char) :
    Csv.parseAllGo .start f fields rows ('\r' :: rest)
      = Csv.parseAllGo .cr [] []
          (rows ++ [if fields.isEmpty then [] else fields ++ [f]]) rest := rfl

/-- Step: any other character starts an unquoted field. -/
theorem parseAllGo_start_other {c : Char} (h1 : ¬c = '"') (h2 : ¬c = ',')
    (h3 : ¬c = '\n') (h4 : ¬c = '\r') (f : List Char) (fields : List (List Char))
    (rows : List (List (List Char))) (rest : List Char) :
    Csv.parseAllGo .start f fields rows (c :: rest)
      = Csv.parseAllGo .unq (f ++ [c]) fields rows rest := by
  rw [Csv.parseAllGo, if_neg h1, if_neg h2, if_neg h3, if_neg h4]

/-- Step: a comma in an unquoted field ends the field. -/
theorem parseAllGo_unq_comma (f : List Char) (fields : List (List Char))
    (rows : List (List (List Char))) (rest : List Char) :
    Csv.parseAllGo .unq f fields rows (',' :: rest)
      = Csv.parseAllGo .start [] (fields ++ [f]) rows rest := rfl

/-- Step: a carriage return in an unquoted field ends the row. -/
theorem parseAllGo_unq_cr (f : List Char) (fields : List (List Char))
    (rows : List (List (List Char))) (rest : List Char) :
    Csv.parseAllGo .unq f fields rows ('\r' :: rest)
      = Csv.parseAllGo .cr [] [] (rows ++ [fields ++ [f]]) rest := rfl

/-- Step: any character other than the delimiter and the row
terminators is appended to the unquoted field. -/
theorem parseAllGo_unq_other {c : Char} (h2 : ¬c = ',') (h3 : ¬c = '\n')
    (h4 : ¬c = '\r') (f : List Char) (fields : List (List Char))
    (rows : List (List (List Char))) (rest : List Char) :
    Csv.parseAllGo .unq f fields rows (c :: rest)
      = Csv.parseAllGo .unq (f ++ [c]) fields rows rest := by
  rw [Csv.parseAllGo, if_neg h2, if_neg h3, if_neg h4]

/-- Step: a quote inside a quoted field. -/
theorem parseAllGo_quo_quote (f : List Char) (fields : List (List Char))
    (rows : List (List (List Char))) (rest : List Char) :
    Csv.parseAllGo .quo f fields rows ('"' :: rest)
      = Csv.parseAllGo .postquo f fields rows rest := rfl

/-- Step: a carriage return right after a closing quote ends the row. -/
theorem parseAllGo_postquo_cr (f : List Char) (fields : List (List Char))
    (rows : List (List (List Char))) (rest : List Char) :
    Csv.parseAllGo .postquo f fields rows ('\r' :: rest)
      = Csv.parseAllGo .cr [] [] (rows ++ [fields ++ [f]]) rest := rfl

/-- Step: the line feed of a CR LF pair is swallowed. -/
theorem parseAllGo_cr_lf (f : List Char) (fields : List (List Char))
    (rows : List (List (List Char))) (rest : List Char) :
    Csv.parseAllGo .cr f fields rows ('\n' :: rest)
      = Csv.parseAllGo .start [] [] rows rest := rfl

/-- In the middle of an unquoted field, the reader consumes every clean
character into the field. -/
theorem parseAllGo_unq_clean :
    ∀ (f : List Char), Csv.needsQuote f = false →
    ∀ (g : List Char) (fields : List (List Char)) (rows : List (List (List Char)))
      (rest : List Char),
      Csv.parseAllGo .unq g fields rows (f ++ rest)
        = Csv.parseAllGo .unq (g ++ f) fields rows rest := by
  intro f
  induction f with
  | nil => intro _ g fields rows rest; simp
  | cons c f2 ih =>
      intro h g fields rows rest
      obtain ⟨h1, h2, h3, h4, h5⟩ := needsQuote_cons_false h
      rw [List.cons_append, parseAllGo_unq_other h1 h4 h3]
      have hstep := ih h5 (g ++ [c]) fields rows rest
      rw [show (g ++ [c]) ++ f2 = g ++ c :: f2 by simp] at hstep
      exact hstep

/-- Reading a row of clean fields joined by commas and terminated by CR
LF appends exactly that row (preceded by any previously completed
fields) and continues at the following input.  The side condition rules
out the one shape the writer never produces unquoted: a row that is a
single empty field with nothing before it. -/
theorem parseAllGo_start_row (rest : List Char) :
    ∀ (r : List (List Char)), (∀ f ∈ r, Csv.needsQuote f = false) → r ≠ [] →
    ∀ (fields : List (List Char)) (rows : List (List (List Char))),
      (fields = [] → r ≠ [[]]) →
      Csv.parseAllGo .start [] fields rows
          (Csv.joinFields r ++ '\r' :: '\n' :: rest)
        = Csv.parseAllGo .start [] [] (rows ++ [fields ++ r]) rest := by
  intro r
  induction r with
  | nil => intro _ hne; exact absurd rfl hne
  | cons f r2 ih =>
      intro hclean _ fields rows hquirk
      have hf : Csv.needsQuote f = false := hclean f (by simp)
      cases r2 with
      | nil =>
          cases f with
          | nil =>
              have hfields : ¬fields.isEmpty = true := by
                intro habs
                exact hquirk (List.isEmpty_iff.mp habs) rfl
              show Csv.parseAllGo .start [] fields rows ('\r' :: '\n' :: rest) = _
              rw [parseAllGo_start_cr, parseAllGo_cr_lf, if_neg hfields]
          | cons c f2 =>
              obtain ⟨h1, h2, h3, h4, h5⟩ := needsQuote_cons_false hf
              have e1 : Csv.joinFields [c :: f2] ++ '\r' :: '\n' :: rest
                  = c :: (f2 ++ '\r' :: '\n' :: rest) := by
                simp [Csv.joinFields, writeField_eq_self hf]
              rw [e1, parseAllGo_start_other h2 h1 h4 h3,
                parseAllGo_unq_clean f2 h5, parseAllGo_unq_cr, parseAllGo_cr_lf]
              rfl
      | cons f2b r3 =>
          have hclean2 : ∀ g ∈ f2b :: r3, Csv.needsQuote g = false := by
            intro g hg
            exact hclean g (by simp [hg])
          have hne2 : (f2b :: r3) ≠ [] := by simp
          cases f with
          | nil =>
              have e1 : Csv.joinFields ([] :: f2b :: r3) ++ '\r' :: '\n' :: rest
                  = ',' :: (Csv.joinFields (f2b :: r3) ++ '\r' :: '\n' :: rest) := by
                simp [Csv.joinFields, Csv.writeField, Csv.needsQuote]
              rw [e1, parseAllGo_start_comma,
                ih hclean2 hne2 (fields ++ [[]]) rows
                  (fun habs => absurd habs (by simp))]
              simp
          | cons c f2 =>
              obtain ⟨h1, h2, h3, h4, h5⟩ := needsQuote_cons_false hf
              have e1 : Csv.joinFields ((c :: f2) :: f2b :: r3) ++ '\r' :: '\n' :: rest
                  = c :: (f2 ++
                      (',' :: (Csv.joinFields (f2b :: r3) ++ '\r' :: '\n' :: rest))) := by
                simp [Csv.joinFields, writeField_eq_self hf]
              rw [e1, parseAllGo_start_other h2 h1 h4 h3,
                parseAllGo_unq_clean f2 h5, parseAllGo_unq_comma,
                ih hclean2 hne2 (fields ++ [[] ++ [c] ++ f2]) rows
                  (fun habs => absurd habs (by simp))]
              simp

/-- Parsing the serialization of rows of clean fields recovers exactly
those rows, after any previously completed rows. -/
theorem parse_writeGo :
    ∀ (rs rows : List (List (List Char))),
      (∀ r ∈ rs, ∀ f ∈ r, Csv.needsQuote f = false) →
      Csv.parseAllGo .start [] [] rows (Csv.writeGo rs) = rows ++ rs := by
  intro rs
  induction rs with
  | nil => intro rows _; rfl
  | cons r rs2 ih =>
      intro rows h
      have hr2 : ∀ r2 ∈ rs2, ∀ f ∈ r2, Csv.needsQuote f = false :=
        fun r2 hm => h r2 (by simp [hm])
      have hwg : Csv.writeGo (r :: rs2) = Csv.writeRow r ++ Csv.writeGo rs2 := by
        simp [Csv.writeGo]
      by_cases hq : r = [[]]
      · subst hq
        have e1 : Csv.writeRow [[]] ++ Csv.writeGo rs2
            = '"' :: '"' :: '\r' :: '\n' :: Csv.writeGo rs2 := by
          simp [Csv.writeRow]
        have e2 : Csv.parseAllGo .start [] [] rows
            ('"' :: '"' :: '\r' :: '\n' :: Csv.writeGo rs2)
            = Csv.parseAllGo .start [] [] (rows ++ [[[]]]) (Csv.writeGo rs2) := rfl
        rw [hwg, e1, e2, ih (rows ++ [[[]]]) hr2]
        simp
      · by_cases hnil : r = []
        · subst hnil
          have e1 : Csv.writeRow [] ++ Csv.writeGo rs2
              = '\r' :: '\n' :: Csv.writeGo rs2 := by
            simp [Csv.writeRow, Csv.joinFields]
          have e2 : Csv.parseAllGo .start [] [] rows
              ('\r' :: '\n' :: Csv.writeGo rs2)
              = Csv.parseAllGo .start [] [] (rows ++ [[]]) (Csv.writeGo rs2) := rfl
          rw [hwg, e1, e2, ih (rows ++ [[]]) hr2]
          simp
        · have e1 : Csv.writeRow r ++ Csv.writeGo rs2
              = Csv.joinFields r ++ '\r' :: '\n' :: Csv.writeGo rs2 := by
            simp [Csv.writeRow, if_neg hq]
          rw [hwg, e1,
            parseAllGo_start_row (Csv.writeGo rs2) r (h r (by simp)) hnil []
              rows (fun _ => hq),
            ih (rows ++ [[] ++ r]) hr2]
          simp

/-- A string is its character list repackaged. -/
theorem stringMk_data (s : String) : String.mk s.data = s := by
  cases s
  rfl

/-- Round trip: parsing the written form of rows whose fields need no
quoting recovers exactly those rows. -/
theorem parse_write (rows : List (List String))
    (h : ∀ r ∈ rows, ∀ f ∈ r, Csv.needsQuote f.data = false) :
    Csv.parse (Csv.write rows) = rows := by
  unfold Csv.parse Csv.write
  have hd : (String.mk (Csv.writeGo (rows.map (fun r => r.map String.data)))).data
      = Csv.writeGo (rows.map (fun r => r.map String.data)) := rfl
  rw [hd, parse_writeGo (rows.map (fun r => r.map String.data)) []
    (by
      intro r hr f hf
      simp only [List.mem_map] at hr
      obtain ⟨r0, hr0, hr0e⟩ := hr
      rw [← hr0e] at hf
      simp only [List.mem_map] at hf
      obtain ⟨f0, hf0, hf0e⟩ := hf
      rw [← hf0e]
      exact h r0 hr0 f0 hf0)]
  rw [List.nil_append, List.map_map]
  conv_rhs => rw [← List.map_id rows]
  apply List.map_congr_left
  intro r _
  simp only [Function.comp, List.map_map, id]
  conv_rhs => rw [← List.map_id r]
  apply List.map_congr_left
  intro s _
  exact stringMk_data s

/-- Decimal digit characters are not special CSV characters. -/
theorem digitChar_not_special {m : ℕ} (hm : m < 10) :
    ¬Char.ofNat (48 + m) = ',' ∧ ¬Char.ofNat (48 + m) = '"'
      ∧ ¬Char.ofNat (48 + m) = '\r' ∧ ¬Char.ofNat (48 + m) = '\n' := by
  interval_cases m <;> exact ⟨by decide, by decide, by decide, by decide⟩

/-- Every character produced by the digit renderer is a decimal digit,
hence not a special CSV character. -/
theorem natDigitCharsAux_not_special :
    ∀ (fuel n : ℕ) (c : Char), c ∈ PyTime.natDigitCharsAux fuel n →
      ¬c = ',' ∧ ¬c = '"' ∧ ¬c = '\r' ∧ ¬c = '\n' := by
  intro fuel
  induction fuel with
  | zero => intro n c hc; simp [PyTime.natDigitCharsAux] at hc
  | succ fuel2 ih =>
      intro n c hc
      unfold PyTime.natDigitCharsAux at hc
      split_ifs at hc with h10
      · simp only [List.mem_singleton] at hc
        subst hc
        exact digitChar_not_special h10
      · simp only [List.mem_append, List.mem_singleton] at hc
        rcases hc with hc | hc
        · exact ih (n / 10) c hc
        · subst hc
          exact digitChar_not_special (Nat.mod_lt n (by omega))

/-- The writer never needs to quote a zero-padded digit field. -/
theorem padDigits_clean (w : ℕ) (n : Int) :
    Csv.needsQuote (PyTime.padDigits w n).data = false := by
  unfold PyTime.padDigits PyTime.natDigitChars Csv.needsQuote
  apply List.any_eq_false.mpr
  intro c hc
  simp only [List.mem_append, List.mem_replicate] at hc
  have hns : ¬c = ',' ∧ ¬c = '"' ∧ ¬c = '\r' ∧ ¬c = '\n' := by
    rcases hc with ⟨_, hc0⟩ | hc2
    · subst hc0
      exact ⟨by decide, by decide, by decide, by decide⟩
    · exact natDigitCharsAux_not_special _ _ c hc2
  simp [hns.1, hns.2.1, hns.2.2.1, hns.2.2.2]

/-- The predicate `needsQuote` distributes over concatenation. -/
theorem needsQuote_append (a b : List Char) :
    Csv.needsQuote (a ++ b) = (Csv.needsQuote a || Csv.needsQuote b) :=
  List.any_append

/-- The writer never needs to quote a derived ISO-8601 timestamp. -/
theorem strfIso_clean (dt : PyTime.DateTime) :
    Csv.needsQuote (PyTime.strfIso dt).data = false := by
  unfold PyTime.strfIso
  simp only [String.data_append, needsQuote_append, padDigits_clean,
    Bool.false_or, Bool.or_false, Bool.or_assoc]
  decide

/-- Every derived time column is clean for the writer. -/
theorem generate_clean (bs : List Int) (ref : PyTime.DateTime) :
    ∀ f ∈ AddTimeToNiwa.generate_time_stamps_from_band_indices bs ref,
      Csv.needsQuote f.data = false := by
  intro f hf
  rw [generate_eq_map] at hf
  simp only [List.mem_map] at hf
  obtain ⟨b, _, hb⟩ := hf
  rw [← hb]
  exact strfIso_clean _

/-- Counterexample to C2 as stated: the retrofit re-serializes the data
rows through the csv writer, so their bytes are not left identical —
here the input's LF-terminated data row comes back CR-LF-terminated.
The bytes after the header line differ between input and output. -/
theorem c2_counterexample :
    AddTimeToNiwa.add_timestamps_to_csv "x,y,z,1\n5,6,7,8\n"
        = some "x,y,z,2000-01-01T00:00:00.000000\r\n5,6,7,8\r\n"
    ∧ AddTimeToNiwa.dataBytes "x,y,z,2000-01-01T00:00:00.000000\r\n5,6,7,8\r\n"
        ≠ AddTimeToNiwa.dataBytes "x,y,z,1\n5,6,7,8\n" :=
  ⟨by decide, by decide⟩

/-- C2 amended: the timestamp retrofit rewrites only the header row —
the first three header cells are kept and the band-index cells are
replaced by derived timestamps — and every data row is preserved
field-for-field (for the quote-free fields these tables hold), though
the byte-level serialization is normalized by the writer (CR LF row
endings, minimal quoting). -/
theorem c2_header_rewrite_preserves_rows
    (contents out xc yc zc : String) (bands : List String)
    (rest : List (List String)) (bs : List Int)
    (hparse : Csv.parse contents = (xc :: yc :: zc :: bands) :: rest)
    (hints : AddTimeToNiwa.mapPyInts bands = some bs)
    (hclean : ∀ r ∈ Csv.parse contents, ∀ f ∈ r, Csv.needsQuote f.data = false)
    (hout : AddTimeToNiwa.add_timestamps_to_csv contents = some out) :
    Csv.parse out
      = (xc :: yc :: zc ::
          AddTimeToNiwa.generate_time_stamps_from_band_indices bs
            AddTimeToNiwa.referenceEpoch2000) :: rest := by
  unfold AddTimeToNiwa.add_timestamps_to_csv at hout
  rw [hparse] at hout
  simp only [hints, Option.some.injEq] at hout
  rw [← hout]
  apply parse_write
  intro r hr f hf
  have hhdr : (xc :: yc :: zc :: bands) ∈ Csv.parse contents := by
    rw [hparse]
    exact List.mem_cons_self _ _
  rcases List.mem_cons.mp hr with hhead | htail
  · subst hhead
    rcases List.mem_cons.mp hf with h0 | hf2
    · subst h0; exact hclean _ hhdr f (by simp)
    rcases List.mem_cons.mp hf2 with h0 | hf3
    · subst h0; exact hclean _ hhdr f (by simp)
    rcases List.mem_cons.mp hf3 with h0 | hf4
    · subst h0; exact hclean _ hhdr f (by simp)
    · exact generate_clean bs AddTimeToNiwa.referenceEpoch2000 f hf4
  · have hmem : r ∈ Csv.parse contents := by
      rw [hparse]
      exact List.mem_cons_of_mem _ htail
    exact hclean r hmem f hf

/-- Witness for the amended C2 at a concrete file. -/
theorem c2_header_rewrite_preserves_rows_witness :
    Csv.parse "x,y,z,2000-01-01T00:00:00.000000\r\n5,6,7,8\r\n"
      = ("x" :: "y" :: "z" ::
          AddTimeToNiwa.generate_time_stamps_from_band_indices [1]
            AddTimeToNiwa.referenceEpoch2000) :: [["5", "6", "7", "8"]] :=
  c2_header_rewrite_preserves_rows "x,y,z,1\n5,6,7,8\n"
    "x,y,z,2000-01-01T00:00:00.000000\r\n5,6,7,8\r\n" "x" "y" "z" ["1"]
    [["5", "6", "7", "8"]] [1] (by decide) (by decide) (by decide) (by decide)

/-- Counterexample to C8 as stated: an input whose data row has fewer
fields than the header implies (two fields against a four-column
header) is not rejected — the retrofit succeeds and writes the short
row back unchanged. -/
theorem c8_counterexample :
    Csv.parse "x,y,z,1\r\n1,2\r\n" = [["x", "y", "z", "1"], ["1", "2"]]
    ∧ AddTimeToNiwa.add_timestamps_to_csv "x,y,z,1\r\n1,2\r\n"
        = some "x,y,z,2000-01-01T00:00:00.000000\r\n1,2\r\n" :=
  ⟨by decide, by decide⟩

/-- C8 amended: the retrofit validates only the header: an empty input
or a header with fewer than three cells fails (the tuple-unpacking
error), and with a well-formed header whose band cells parse as
integers the operation succeeds regardless of the data rows — data rows
are never validated, so a row with fewer fields than the header implies
is passed through rather than rejected. -/
theorem c8_header_only_validation (contents : String) :
    (((Csv.parse contents).head?.getD []).length < 3
      → AddTimeToNiwa.add_timestamps_to_csv contents = none)
    ∧ (∀ (header : List String) (data_rows : List (List String)),
        Csv.parse contents = header :: data_rows →
        3 ≤ header.length →
        (AddTimeToNiwa.mapPyInts (header.drop 3)).isSome = true →
        (AddTimeToNiwa.add_timestamps_to_csv contents).isSome = true) := by
  constructor
  · intro hshort
    unfold AddTimeToNiwa.add_timestamps_to_csv
    cases hp : Csv.parse contents with
    | nil => rfl
    | cons header rem =>
        rw [hp] at hshort
        simp only [List.head?_cons, Option.getD_some] at hshort
        match header, hshort with
        | [], _ => rfl
        | [a], _ => rfl
        | [a, b], _ => rfl
        | a :: b :: c :: t, habs => exact absurd habs (by simp)
  · intro header data_rows hp hlen hsome
    obtain ⟨a, b, c, t, rfl⟩ : ∃ a b c t, header = a :: b :: c :: t := by
      match header, hlen with
      | a :: b :: c :: t, _ => exact ⟨a, b, c, t, rfl⟩
      | [], habs => exact absurd habs (by simp)
      | [a], habs => exact absurd habs (by simp)
      | [a, b], habs => exact absurd habs (by simp)
    have ht : (a :: b :: c :: t).drop 3 = t := rfl
    rw [ht] at hsome
    unfold AddTimeToNiwa.add_timestamps_to_csv
    rw [hp]
    cases hm : AddTimeToNiwa.mapPyInts t with
    | none => rw [hm] at hsome; exact absurd hsome (by simp)
    | some bs => simp [hm]

/-- Witness for the amended C8: a two-cell header fails; a four-column
header with a short data row succeeds. -/
theorem c8_header_only_validation_witness :
    AddTimeToNiwa.add_timestamps_to_csv "x,y\n1,2\n" = none
    ∧ (AddTimeToNiwa.add_timestamps_to_csv "x,y,z,1\r\n1,2\r\n").isSome = true :=
  ⟨(c8_header_only_validation "x,y\n1,2\n").1 (by decide),
    (c8_header_only_validation "x,y,z,1\r\n1,2\r\n").2 ["x", "y", "z", "1"]
      [["1", "2"]] (by decide) (by decide) (by decide)⟩

end FloodScripts
